import Mathlib

/-
Verification of the stock-ticker simulator (stocks.go and its variant).

Modelling conventions:
* Go `float64` values (prices, deltas, percentages) are modelled as exact
  rationals (ℚ); `math.Floor` becomes `Int.floor`.
* Go `int` values are modelled as ℤ; Go integer division truncates toward
  zero, which is `Int.tdiv`.
* `rand.Intn n` panics for `n ≤ 0` and otherwise returns a uniformly
  distributed value in `[0, n)`.  It is modelled as a function of an
  arbitrary integer seed: `none` models the panic, and for `n > 0` the
  result is `seed % n`, which ranges over all of `[0, n)` as the seed
  varies.
* Concurrency is modelled by explicit event traces in program order of the
  goroutine under consideration, and the `select` statement of
  `handleResponse` by the set of cases ready at the earliest ready time,
  with an explicit tie-break argument standing for Go's random choice
  among simultaneously ready cases.
-/

/-- Go constant `CHAT_CHANNEL` from stocks.go. -/
def CHAT_CHANNEL : String := "stock-chat"

/-- Go constant `CHANNEL_GROUP` from stocks.go. -/
def CHANNEL_GROUP : String := "stockblast"

/-- Go constant `HISTORY_CHANNEL` from stocks.go. -/
def HISTORY_CHANNEL : String := "MSFT"

/-- Go constant `GRANT_TTL` from stocks.go. -/
def GRANT_TTL : Int := 1

/-- The `Stock` struct of stocks.go: per-entity parameters plus the mutable
current price owned by that entity's loop. -/
structure Stock where
  name : String
  initialPrice : ℚ
  currentPrice : ℚ
  minTrade : Int
  maxTrade : Int
  volatility : Int
  maxDelta : Int
deriving DecidableEq, Repr

/-- The `StreamMessage` struct of stocks.go.  In Go the price, delta and
percentage fields are strings produced by `fmt.Sprintf("%.2f", v)`; here we
record the exact numeric value `v` handed to the formatter, since the claims
are about which values the message carries. -/
structure StreamMessage where
  time : String
  price : ℚ
  delta : ℚ
  percentage : ℚ
  vol : Int
deriving DecidableEq, Repr

/-- Model of Go `rand.Intn n` applied to a seed: `rand.Intn` panics when
`n ≤ 0` (modelled by `none`), and otherwise returns a value in `[0, n)`;
`seed % n` (euclidean remainder) realises every such value. -/
def Intn (n : Int) (seed : Int) : Option Int :=
  if n ≤ 0 then none else some (seed % n)

/-- The helper `Randn(min, max int) int` of stocks.go:
`rand.Intn(max-min) + min`. -/
def Randn (min max : Int) (seed : Int) : Option Int :=
  (Intn (max - min) seed).map (· + min)

/-- The helper `Roundn(val float64, precision int) float64` of stocks.go:
`shift := math.Pow(10, precision); return math.Floor(val*shift+.5) / shift`. -/
def Roundn (val : ℚ) (precision : ℕ) : ℚ :=
  let shift : ℚ := 10 ^ precision
  (⌊val * shift + 1/2⌋ : ℚ) / shift

/-- The defaulting at the top of `UpdateValuesAndPublish`:
`if stock.CurrentPrice == 0 { stock.CurrentPrice = stock.InitialPrice }`. -/
def effPrice (stock : Stock) : ℚ :=
  if stock.currentPrice = 0 then stock.initialPrice else stock.currentPrice

/-- The price jitter of one tick, given the value `r` drawn by
`rand.Intn(stock.Volatility)`:
`change := float64(rand.Intn(stock.Volatility)-stock.Volatility/2) / 100`.
Go's integer division truncates toward zero, hence `Int.tdiv`. -/
def jitter (stock : Stock) (r : Int) : ℚ :=
  ((r - Int.tdiv stock.volatility 2 : Int) : ℚ) / 100

/-- The mean-reversion test of `UpdateValuesAndPublish`:
`math.Abs(percentage) > float64(stock.MaxDelta)/100`. -/
def resetTriggered (stock : Stock) (percentage : ℚ) : Bool :=
  decide (|percentage| > (stock.maxDelta : ℚ) / 100)

/-- The value computation of one tick of `UpdateValuesAndPublish`, up to and
including the mean-reversion reset: given the two random draws (seeds `k1`
for the jitter, `k2` for the volume) it returns the `StreamMessage` handed
to `Publish` and the `CurrentPrice` left in the stock for the next tick.
`none` models the `rand.Intn` panic on an empty range. -/
def updateValues (stock : Stock) (now : String) (k1 k2 : Int) :
    Option (StreamMessage × ℚ) :=
  match Intn stock.volatility k1, Randn stock.volatility 1000 k2 with
  | some r, some v =>
    let price := effPrice stock + jitter stock r
    let percentage := Roundn ((1 - stock.initialPrice / price) * 100) 2
    some ({ time := now
            price := price
            delta := price - stock.initialPrice
            percentage := percentage
            vol := v * 10 },
          if resetTriggered stock percentage then stock.initialPrice else price)
  | _, _ => none

-- Sanity checks of the numeric helpers on concrete inputs.
example : Roundn (49995/1000) 2 = 50 := by norm_num [Roundn]
example : Roundn (-5/1000) 2 = 0 := by norm_num [Roundn]
example : Intn 10 23 = some 3 := by decide
example : Randn 10 20 7 = some 17 := by decide

/-- Events of one tick of `UpdateValuesAndPublish`, in the program order of
the goroutine executing it.  `priceReset` is emitted only when the
mean-reversion branch is taken.  `sleepStarted` and `sleepFinished` bracket
the `time.Sleep` call; `outcomeObserved` is the receive from the `done`
channel (the awaiter's completion) and `cycleSignalled` the send on the
`cycle` channel that lets `RunCycle` start the next tick. -/
inductive TickEvent where
  | priceComputed (price : ℚ)
  | messageConstructed (msg : StreamMessage)
  | priceReset (price : ℚ)
  | publishIssued (channel : String) (msg : StreamMessage)
  | awaiterStarted
  | sleepStarted (amount : Int)
  | sleepFinished
  | outcomeObserved
  | cycleSignalled
deriving DecidableEq, Repr

/-- Boolean classifiers for `TickEvent`, used to locate events in a trace. -/
def TickEvent.isMessageConstructed : TickEvent → Bool
  | .messageConstructed _ => true
  | _ => false

/-- True exactly on `priceReset` events. -/
def TickEvent.isPriceReset : TickEvent → Bool
  | .priceReset _ => true
  | _ => false

/-- True exactly on `publishIssued` events. -/
def TickEvent.isPublishIssued : TickEvent → Bool
  | .publishIssued _ _ => true
  | _ => false

/-- True exactly on `awaiterStarted` events. -/
def TickEvent.isAwaiterStarted : TickEvent → Bool
  | .awaiterStarted => true
  | _ => false

/-- True exactly on `sleepStarted` events. -/
def TickEvent.isSleepStarted : TickEvent → Bool
  | .sleepStarted _ => true
  | _ => false

/-- True exactly on `sleepFinished` events. -/
def TickEvent.isSleepFinished : TickEvent → Bool
  | .sleepFinished => true
  | _ => false

/-- True exactly on `outcomeObserved` events. -/
def TickEvent.isOutcomeObserved : TickEvent → Bool
  | .outcomeObserved => true
  | _ => false

/-- One full tick of `UpdateValuesAndPublish` as an event trace in the
program order of the goroutine running it, together with the stock price it
leaves behind.  The trace mirrors the statement order of the source: compute
the new values, build the `StreamMessage`, apply the mean-reversion reset if
triggered, launch `Publish` and `handleResponse` as goroutines, draw the
sleep amount with `Randn(stock.MinTrade, stock.MaxTrade)` and sleep, then
`cycle <- <-done`: receive the awaiter's outcome and signal the cycle.
`k3` is the seed of the sleep draw; `none` models a `rand.Intn` panic. -/
def tickTrace (stock : Stock) (now : String) (k1 k2 k3 : Int) :
    Option (List TickEvent × ℚ) :=
  match updateValues stock now k1 k2, Randn stock.minTrade stock.maxTrade k3 with
  | some (msg, priceAfter), some sleepAmt =>
    some ([TickEvent.priceComputed msg.price,
           TickEvent.messageConstructed msg] ++
          (if resetTriggered stock msg.percentage then
            [TickEvent.priceReset stock.initialPrice] else []) ++
          [TickEvent.publishIssued stock.name msg,
           TickEvent.awaiterStarted,
           TickEvent.sleepStarted sleepAmt,
           TickEvent.sleepFinished,
           TickEvent.outcomeObserved,
           TickEvent.cycleSignalled],
          priceAfter)
  | _, _ => none

/-- The loop of `RunCycle`, unrolled over a list of per-tick random seeds
`(k1, k2, k3)`.  Each iteration launches `UpdateValuesAndPublish` and blocks
on the `cycle` channel, so the events of tick `n` (tagged `n`) all precede
the events of tick `n+1`; the stock's `CurrentPrice` is threaded from one
tick to the next. -/
def runTraceAux (now : String) :
    Stock → ℕ → List (Int × Int × Int) → Option (List (ℕ × TickEvent) × ℚ)
  | stock, _, [] => some ([], stock.currentPrice)
  | stock, n, (k1, k2, k3) :: rest =>
    match tickTrace stock now k1 k2 k3 with
    | none => none
    | some (events, priceAfter) =>
      match runTraceAux now { stock with currentPrice := priceAfter } (n + 1) rest with
      | none => none
      | some (laterEvents, finalPrice) =>
        some (events.map (fun e => (n, e)) ++ laterEvents, finalPrice)

/-- The event trace of `RunCycle` on a stock for a finite prefix of ticks,
each event tagged with the index of the tick producing it. -/
def runTrace (stock : Stock) (now : String) (seeds : List (Int × Int × Int)) :
    Option (List (ℕ × TickEvent) × ℚ) :=
  runTraceAux now stock 0 seeds

/-- Behaviour of one channel of `handleResponse` during one call: a value is
delivered at time `t` (nanoseconds), the channel is closed at time `t`, or it
stays silent for the whole call. -/
inductive ChanSignal where
  | deliver (t : ℕ) (payload : String)
  | closeAt (t : ℕ)
  | silent
deriving DecidableEq, Repr

/-- A scenario for one `handleResponse` call: what the success channel and
the error channel do. -/
structure Scenario where
  success : ChanSignal
  error : ChanSignal
deriving DecidableEq, Repr

/-- The time at which a channel becomes ready for the `select`, if ever. -/
def ChanSignal.readyTime : ChanSignal → Option ℕ
  | .deliver t _ => some t
  | .closeAt t => some t
  | .silent => none

/-- Duration armed by `time.After(time.Second * 3)` in `handleResponse`, in
nanoseconds.  The `timeout uint16` parameter of `handleResponse` is never
referenced by its body, so the armed duration ignores it. -/
def handleResponseTimerNs (timeout : ℕ) : ℕ := 3 * 1000000000

/-- Minimum of an optional ready time and the timer deadline. -/
def optMin : Option ℕ → ℕ → ℕ
  | none, d => d
  | some t, d => Min.min t d

/-- The time at which the `select` of `handleResponse` fires: the earliest
of the two channels' ready times and the 3-second timer. -/
def resolveTime (timeout : ℕ) (s : Scenario) : ℕ :=
  optMin s.success.readyTime (optMin s.error.readyTime (handleResponseTimerNs timeout))

/-- A `select` case of `handleResponse` that can fire: a receive from the
success channel, a receive from the error channel (in both, `none` is a
receive from a closed channel, i.e. `ok = false`), or the timer. -/
inductive SelectCase where
  | successCase (delivered : Option String)
  | errorCase (delivered : Option String)
  | timeoutCase
deriving DecidableEq, Repr

/-- What receive (if any) a channel offers at a given time. -/
def ChanSignal.caseAt (c : ChanSignal) (time : ℕ) : Option (Option String) :=
  match c with
  | .deliver t p => if t = time then some (some p) else none
  | .closeAt t => if t = time then some none else none
  | .silent => none

/-- The `select` cases ready at the moment the `select` of `handleResponse`
fires.  More than one can be ready at once (Go then picks uniformly at
random); the timer case is ready whenever neither channel became ready
strictly earlier. -/
def readyCases (timeout : ℕ) (s : Scenario) : List SelectCase :=
  ((s.success.caseAt (resolveTime timeout s)).map SelectCase.successCase).toList ++
  ((s.error.caseAt (resolveTime timeout s)).map SelectCase.errorCase).toList ++
  (if handleResponseTimerNs timeout = resolveTime timeout s then
    [SelectCase.timeoutCase] else [])

/-- The case the `select` actually executes: Go's random choice among the
simultaneously ready cases is modelled by the tie-break argument `tb`. -/
def pickCase (timeout : ℕ) (s : Scenario) (tb : ℕ) : SelectCase :=
  (readyCases timeout s).getD (tb % (readyCases timeout s).length) SelectCase.timeoutCase

/-- Diagnostic output `handleResponse` writes for one select case. -/
inductive LogEntry where
  | printed (s : String)
  | printedError (s : String)
  | printedTimeout
deriving DecidableEq, Repr

/-- The body of one iteration of the labelled `await` loop of
`handleResponse`: the logs the executed case prints and whether it executes
`break await`.  Every case of the source breaks; a receive from a closed
channel (`ok = false`) breaks without printing. -/
def selectBody : SelectCase → List LogEntry × Bool
  | .successCase (some p) => ([LogEntry.printed p], true)
  | .successCase none => ([], true)
  | .errorCase (some p) => ([LogEntry.printedError p], true)
  | .errorCase none => ([], true)
  | .timeoutCase => ([LogEntry.printedTimeout], true)

/-- The labelled `await` loop of `handleResponse`, run over the stream of
select cases it would execute: it stops at the first case whose body breaks.
Returns the logs printed, the number of cases consumed, and whether the loop
exited via `break await` (if the stream is exhausted without a break the Go
loop would block forever). -/
def awaitLoop : List SelectCase → List LogEntry × ℕ × Bool
  | [] => ([], 0, false)
  | c :: rest =>
    let r := selectBody c
    if r.2 then (r.1, 1, true)
    else
      let (l2, n, b) := awaitLoop rest
      (r.1 ++ l2, n + 1, b)

/-- The observable result of one `handleResponse` call. -/
structure HandlerResult where
  logs : List LogEntry
  iterations : ℕ
  finishedSignalled : Bool
deriving DecidableEq, Repr

/-- The function `handleResponse` of stocks.go: run the `await` loop on the
case the `select` executes first (followed by whatever cases could fire
later, which the loop only sees if it fails to break), then signal
`finishedChannel <- true` provided the loop exited. -/
def handleResponse (timeout : ℕ) (s : Scenario) (tb : ℕ)
    (laterCases : List SelectCase) : HandlerResult :=
  let (logs, n, broke) := awaitLoop (pickCase timeout s tb :: laterCases)
  { logs := logs, iterations := n, finishedSignalled := broke }

-- Sanity checks of the handler model.
example :
    handleResponse 20 ⟨ChanSignal.deliver 5 "ok", ChanSignal.silent⟩ 0 [] =
      ⟨[LogEntry.printed "ok"], 1, true⟩ := by decide
example :
    handleResponse 20 ⟨ChanSignal.silent, ChanSignal.silent⟩ 0 [] =
      ⟨[LogEntry.printedTimeout], 1, true⟩ := by decide
example :
    handleResponse 20 ⟨ChanSignal.closeAt 0, ChanSignal.silent⟩ 0 [] =
      ⟨[], 1, true⟩ := by decide

/-- Terminal outcome of one asynchronous request, as observed through
`handleResponse`: a success payload, a failure payload, or the timeout. -/
inductive Outcome where
  | success (payload : String)
  | failure (payload : String)
  | timeout
deriving DecidableEq, Repr

/-- The asynchronous PubNub operations issued during bootstrap, with the
arguments of the corresponding stocks.go call sites. -/
inductive PubnubCall where
  | channelGroupRemoveGroup (group : String)
  | channelGroupAddChannel (group channels : String)
  | grantChannelGroup (group : String) (read manage : Bool) (ttl : Int) (auth : String)
  | grantSubscribe (channels : String) (read write : Bool) (ttl : Int) (auth : String)
deriving DecidableEq, Repr

/-- Events of the bootstrap sequence: an operation is issued (its `go`
statement runs), or the outcome of the pending operation is observed (the
`<-done` receive returns after `handleResponse` resolved it). -/
inductive BootstrapEvent where
  | issued (call : PubnubCall)
  | observed (o : Outcome)
deriving DecidableEq, Repr

/-- One bootstrap step as written in the source:
`go pubnub.<call>(...); go handleResponse(...); <-done`.  The operation is
issued, then the step blocks until the outcome — whatever it is — has been
observed. -/
def awaitedCall (call : PubnubCall) (o : Outcome) : List BootstrapEvent :=
  [BootstrapEvent.issued call, BootstrapEvent.observed o]

/-- The function `SetUpChannelGroup` of stocks.go as an event trace, given
the outcomes `o1`, `o2` the backing system produces for its two operations:
remove the channel group, then re-add every stock channel to it. -/
def SetUpChannelGroupTrace (stockNames : String) (o1 o2 : Outcome) :
    List BootstrapEvent :=
  awaitedCall (PubnubCall.channelGroupRemoveGroup CHANNEL_GROUP) o1 ++
  awaitedCall (PubnubCall.channelGroupAddChannel CHANNEL_GROUP stockNames) o2

/-- The function `GrantPermissions` of stocks.go as an event trace, given
the outcomes of its five grant operations: manage rights on the group for
the bootstrap auth key, public read on the group, public read+write on the
chat channel, public read on the history channel, and write rights on the
joined stock channels for the publishing auth key. -/
def GrantPermissionsTrace (stockNames auth bootstrapAuth : String)
    (o3 o4 o5 o6 o7 : Outcome) : List BootstrapEvent :=
  awaitedCall (PubnubCall.grantChannelGroup CHANNEL_GROUP false true GRANT_TTL bootstrapAuth) o3 ++
  awaitedCall (PubnubCall.grantChannelGroup CHANNEL_GROUP true false GRANT_TTL "") o4 ++
  awaitedCall (PubnubCall.grantSubscribe CHAT_CHANNEL true true GRANT_TTL "") o5 ++
  awaitedCall (PubnubCall.grantSubscribe HISTORY_CHANNEL true false GRANT_TTL "") o6 ++
  awaitedCall (PubnubCall.grantSubscribe stockNames false true GRANT_TTL auth) o7

/-- The whole bootstrap as run by `main`: `SetUpChannelGroup()` followed by
`GrantPermissions()`. -/
def bootstrapTrace (stockNames auth bootstrapAuth : String)
    (o1 o2 o3 o4 o5 o6 o7 : Outcome) : List BootstrapEvent :=
  SetUpChannelGroupTrace stockNames o1 o2 ++
  GrantPermissionsTrace stockNames auth bootstrapAuth o3 o4 o5 o6 o7

/-- C2: during bootstrap the seven operations (remove the topic group, add
the entity topics to it, grant manage rights to the management identity,
grant public read on the group, grant public read+write on the chat topic,
grant public read on the history topic, grant write rights on the joined
entity topics to the publishing identity) are issued in exactly that order;
each operation is issued only after the previous operation's outcome —
success, failure or timeout — has been observed (in the trace, every
`issued` is immediately preceded by the previous step's `observed`); and no
outcome aborts the sequence: the trace below is the same for every choice of
the seven outcomes, so a failure or timeout at any step still lets the next
step be issued. -/
theorem bootstrap_ops_ordered_and_non_aborting
    (stockNames auth bootstrapAuth : String) (o1 o2 o3 o4 o5 o6 o7 : Outcome) :
    bootstrapTrace stockNames auth bootstrapAuth o1 o2 o3 o4 o5 o6 o7 =
      [BootstrapEvent.issued (PubnubCall.channelGroupRemoveGroup CHANNEL_GROUP),
       BootstrapEvent.observed o1,
       BootstrapEvent.issued (PubnubCall.channelGroupAddChannel CHANNEL_GROUP stockNames),
       BootstrapEvent.observed o2,
       BootstrapEvent.issued
         (PubnubCall.grantChannelGroup CHANNEL_GROUP false true GRANT_TTL bootstrapAuth),
       BootstrapEvent.observed o3,
       BootstrapEvent.issued
         (PubnubCall.grantChannelGroup CHANNEL_GROUP true false GRANT_TTL ""),
       BootstrapEvent.observed o4,
       BootstrapEvent.issued
         (PubnubCall.grantSubscribe CHAT_CHANNEL true true GRANT_TTL ""),
       BootstrapEvent.observed o5,
       BootstrapEvent.issued
         (PubnubCall.grantSubscribe HISTORY_CHANNEL true false GRANT_TTL ""),
       BootstrapEvent.observed o6,
       BootstrapEvent.issued
         (PubnubCall.grantSubscribe stockNames false true GRANT_TTL auth),
       BootstrapEvent.observed o7] := rfl

/-- C7: the rounding helper `Roundn` at 2 decimal places is round-half-up,
`floor(x*100 + 0.5)/100`; in particular `Roundn 49.995 2 = 50.00` and
`Roundn (-0.005) 2 = 0.00` (banker's rounding would give 49.99 resp. -0.01
is not at issue: half-up rounds both up); and the percentage field of every
tick's message equals `Roundn ((1 - initialPrice/newPrice) * 100) 2`. -/
theorem roundn_half_up_and_percentage :
    (∀ val : ℚ, Roundn val 2 = (⌊val * 100 + 1/2⌋ : ℚ) / 100) ∧
    Roundn (49995/1000) 2 = 50 ∧
    Roundn (-5/1000) 2 = 0 ∧
    (∀ (stock : Stock) (now : String) (k1 k2 : Int),
      (updateValues stock now k1 k2).map (fun p => p.1.percentage) =
        (updateValues stock now k1 k2).map
          (fun p => Roundn ((1 - stock.initialPrice / p.1.price) * 100) 2)) := by
  refine ⟨?_, ?_, ?_, ?_⟩
  · intro val
    norm_num [Roundn]
  · norm_num [Roundn]
  · norm_num [Roundn]
  · intro stock now k1 k2
    cases h1 : Intn stock.volatility k1 <;>
      cases h2 : Randn stock.volatility 1000 k2 <;>
        simp [updateValues, h1, h2]

/-- Every branch of the `select` in `handleResponse` executes `break await`,
so the `await` loop always stops at the first case it executes, printing
that case's diagnostics only. -/
theorem awaitLoop_breaks_first (c : SelectCase) (rest : List SelectCase) :
    awaitLoop (c :: rest) = ((selectBody c).1, 1, true) := by
  cases c with
  | successCase d => cases d <;> rfl
  | errorCase d => cases d <;> rfl
  | timeoutCase => rfl

/-- A `handleResponse` call resolves with the single case the `select`
executes: its diagnostics, one loop iteration, completion signalled. -/
theorem handleResponse_eval (timeout : ℕ) (s : Scenario) (tb : ℕ)
    (later : List SelectCase) :
    handleResponse timeout s tb later =
      ⟨(selectBody (pickCase timeout s tb)).1, 1, true⟩ := by
  unfold handleResponse
  rw [awaitLoop_breaks_first]

/-- When both channels stay silent, the only ready case is the timer. -/
theorem pickCase_silent (t tb : ℕ) :
    pickCase t ⟨ChanSignal.silent, ChanSignal.silent⟩ tb = SelectCase.timeoutCase := by
  have hb : readyCases t ⟨ChanSignal.silent, ChanSignal.silent⟩ =
      [SelectCase.timeoutCase] := by
    simp [readyCases, resolveTime, optMin, ChanSignal.caseAt,
      ChanSignal.readyTime, handleResponseTimerNs]
  simp [pickCase, hb, Nat.mod_one]

/-- C9: `handleResponse` ignores its `timeout` parameter entirely: its
result is the same for every value of the parameter, the timer it arms is a
fixed 3 seconds (3e9 nanoseconds) for every argument, and when neither
channel ever becomes ready the call resolves at exactly 3 seconds with the
timeout branch, again for every value of the parameter — so the effective
timeout of every request is 3 seconds regardless of the configured
non-subscribe timeout handed in at each call site. -/
theorem handleResponse_ignores_timeout_parameter :
    (∀ (t1 t2 : ℕ) (s : Scenario) (tb : ℕ) (later : List SelectCase),
      handleResponse t1 s tb later = handleResponse t2 s tb later) ∧
    (∀ t : ℕ, handleResponseTimerNs t = 3 * 1000000000) ∧
    (∀ (t tb : ℕ) (later : List SelectCase),
      resolveTime t ⟨ChanSignal.silent, ChanSignal.silent⟩ = 3 * 1000000000 ∧
      handleResponse t ⟨ChanSignal.silent, ChanSignal.silent⟩ tb later =
        ⟨[LogEntry.printedTimeout], 1, true⟩) := by
  refine ⟨fun t1 t2 s tb later => rfl, fun t => rfl, fun t tb later => ⟨rfl, ?_⟩⟩
  rw [handleResponse_eval, pickCase_silent]
  rfl

/-- C10: if the success channel or the error channel is closed rather than
delivered on (a receive with `ok = false`), `handleResponse` treats the
closure as a terminal event: the loop breaks at that very case (one
iteration, consuming nothing further), prints no payload to the diagnostics
sink, and still signals completion on `finishedChannel` — the same result
shape as for a delivered value or a timeout. -/
theorem handleResponse_closed_channel_terminal
    (timeout : ℕ) (s : Scenario) (tb : ℕ) (later : List SelectCase)
    (h : pickCase timeout s tb = SelectCase.successCase none ∨
         pickCase timeout s tb = SelectCase.errorCase none) :
    handleResponse timeout s tb later = ⟨[], 1, true⟩ := by
  rcases h with h | h <;> rw [handleResponse_eval, h] <;> rfl

/-- Witness for C10: with the success channel closed at time 0 and the error
channel silent, the select executes the closed-channel receive, and the call
returns no logs, one iteration, completion signalled. -/
theorem handleResponse_closed_channel_terminal_witness :
    (pickCase 20 ⟨ChanSignal.closeAt 0, ChanSignal.silent⟩ 0 =
      SelectCase.successCase none) ∧
    handleResponse 20 ⟨ChanSignal.closeAt 0, ChanSignal.silent⟩ 0 [] =
      ⟨[], 1, true⟩ :=
  ⟨by decide,
   handleResponse_closed_channel_terminal 20 ⟨ChanSignal.closeAt 0, ChanSignal.silent⟩ 0 []
     (Or.inl (by decide))⟩

/-- A list lookup with default either returns the default or a member of
the list. -/
theorem getD_default_or_mem {α : Type} (l : List α) (n : ℕ) (d : α) :
    l.getD n d = d ∨ l.getD n d ∈ l := by
  induction l generalizing n with
  | nil => exact Or.inl rfl
  | cons a t ih =>
    cases n with
    | zero => exact Or.inr (by simp)
    | succ m =>
      rcases ih m with h | h
      · exact Or.inl (by rw [List.getD_cons_succ]; exact h)
      · exact Or.inr (by rw [List.getD_cons_succ]; exact List.mem_cons_of_mem a h)

/-- Every member of the ready-case list comes from one of the three select
arms: a ready success receive, a ready error receive, or the timer. -/
theorem mem_readyCases {t : ℕ} {s : Scenario} {c : SelectCase}
    (hc : c ∈ readyCases t s) :
    (∃ d, s.success.caseAt (resolveTime t s) = some d ∧
      c = SelectCase.successCase d) ∨
    (∃ d, s.error.caseAt (resolveTime t s) = some d ∧
      c = SelectCase.errorCase d) ∨
    c = SelectCase.timeoutCase := by
  simp only [readyCases, List.mem_append] at hc
  rcases hc with (hc | hc) | hc
  · left
    rcases Option.map_eq_some'.mp (Option.mem_def.mp (Option.mem_toList.mp hc)) with
      ⟨d, hd, hfd⟩
    exact ⟨d, hd, hfd.symm⟩
  · right; left
    rcases Option.map_eq_some'.mp (Option.mem_def.mp (Option.mem_toList.mp hc)) with
      ⟨d, hd, hfd⟩
    exact ⟨d, hd, hfd.symm⟩
  · right; right
    by_cases h3 : handleResponseTimerNs t = resolveTime t s
    · rw [if_pos h3] at hc
      simpa using hc
    · rw [if_neg h3] at hc
      simp at hc

theorem pickCase_deliver_cases (t ts te tb : ℕ) (ps pe : String) :
    pickCase t ⟨ChanSignal.deliver ts ps, ChanSignal.deliver te pe⟩ tb =
        SelectCase.successCase (some ps) ∨
      pickCase t ⟨ChanSignal.deliver ts ps, ChanSignal.deliver te pe⟩ tb =
        SelectCase.errorCase (some pe) ∨
      pickCase t ⟨ChanSignal.deliver ts ps, ChanSignal.deliver te pe⟩ tb =
        SelectCase.timeoutCase := by
  unfold pickCase
  rcases getD_default_or_mem
      (readyCases t ⟨ChanSignal.deliver ts ps, ChanSignal.deliver te pe⟩)
      (tb % (readyCases t ⟨ChanSignal.deliver ts ps, ChanSignal.deliver te pe⟩).length)
      SelectCase.timeoutCase with h | h
  · exact Or.inr (Or.inr h)
  · rcases mem_readyCases h with ⟨d, hd, hc⟩ | ⟨d, hd, hc⟩ | hc
    · simp [ChanSignal.caseAt] at hd
      obtain ⟨hts, hdd⟩ := hd
      subst hdd
      exact Or.inl hc
    · simp [ChanSignal.caseAt] at hd
      obtain ⟨hte, hdd⟩ := hd
      subst hdd
      exact Or.inr (Or.inl hc)
    · exact Or.inr (Or.inr hc)

/-- C5: when `handleResponse` races a success signal, a failure signal and
the timeout, exactly one of the three terminal events resolves the call (the
loop breaks after exactly one select case), exactly one outcome is produced
and reported to the diagnostics sink (exactly one log line: the success
payload, the error payload, or the timeout message), and completion is then
signalled on `finishedChannel` without consuming any later event of the
other paths. -/
theorem awaiter_exactly_one_outcome
    (timeout ts te tb : ℕ) (ps pe : String) (later : List SelectCase) :
    (handleResponse timeout ⟨ChanSignal.deliver ts ps, ChanSignal.deliver te pe⟩
        tb later).iterations = 1 ∧
    (handleResponse timeout ⟨ChanSignal.deliver ts ps, ChanSignal.deliver te pe⟩
        tb later).finishedSignalled = true ∧
    (handleResponse timeout ⟨ChanSignal.deliver ts ps, ChanSignal.deliver te pe⟩
        tb later).logs.length = 1 ∧
    ((handleResponse timeout ⟨ChanSignal.deliver ts ps, ChanSignal.deliver te pe⟩
        tb later).logs = [LogEntry.printed ps] ∨
     (handleResponse timeout ⟨ChanSignal.deliver ts ps, ChanSignal.deliver te pe⟩
        tb later).logs = [LogEntry.printedError pe] ∨
     (handleResponse timeout ⟨ChanSignal.deliver ts ps, ChanSignal.deliver te pe⟩
        tb later).logs = [LogEntry.printedTimeout]) := by
  simp only [handleResponse_eval]
  rcases pickCase_deliver_cases timeout ts te tb ps pe with h | h | h <;>
    rw [h] <;> simp [selectBody]

/-- C6: on every tick the new price equals the stock's current price plus
`(k - volatility/2)/100` where `k = rand.Intn(volatility)` is uniform on
`[0, volatility)` (here: `0 ≤ r < volatility` for the value produced from
any seed) and `volatility/2` is Go's truncating integer division
(`Int.tdiv`); and the emitted delta equals the new price minus the initial
price.  `currentPrice ≠ 0` rules out the first-use defaulting branch, in
which the computation starts from `initialPrice` instead. -/
theorem tick_price_jitter_and_delta
    (stock : Stock) (now : String) (k1 k2 : Int) (r v : Int)
    (hc : stock.currentPrice ≠ 0)
    (h1 : Intn stock.volatility k1 = some r)
    (h2 : Randn stock.volatility 1000 k2 = some v) :
    0 ≤ r ∧ r < stock.volatility ∧
    ∃ msg after, updateValues stock now k1 k2 = some (msg, after) ∧
      msg.price = stock.currentPrice +
        ((r - Int.tdiv stock.volatility 2 : Int) : ℚ) / 100 ∧
      msg.delta = msg.price - stock.initialPrice := by
  have hv : ¬ stock.volatility ≤ 0 := by
    intro hle
    rw [Intn, if_pos hle] at h1
    exact Option.noConfusion h1
  have hrval : r = k1 % stock.volatility := by
    rw [Intn, if_neg hv] at h1
    exact (Option.some.inj h1).symm
  refine ⟨?_, ?_, ?_⟩
  · rw [hrval]
    exact Int.emod_nonneg k1 (by omega)
  · rw [hrval]
    exact Int.emod_lt_of_pos k1 (by omega)
  · have hu : updateValues stock now k1 k2 =
        some ({ time := now
                price := effPrice stock + jitter stock r
                delta := effPrice stock + jitter stock r - stock.initialPrice
                percentage := Roundn
                  ((1 - stock.initialPrice / (effPrice stock + jitter stock r)) * 100) 2
                vol := v * 10 },
              if resetTriggered stock (Roundn
                  ((1 - stock.initialPrice / (effPrice stock + jitter stock r)) * 100) 2) then
                stock.initialPrice
              else effPrice stock + jitter stock r) := by
      simp [updateValues, h1, h2]
    refine ⟨_, _, hu, ?_, rfl⟩
    show effPrice stock + jitter stock r = _
    rw [effPrice, if_neg hc, jitter]

/-- Concrete stock used in witnesses: mid-run state with a deviant current
price relative to the initial price. -/
def stockDeviant : Stock :=
  { name := "ACME", initialPrice := 100, currentPrice := 50,
    minTrade := 10, maxTrade := 20, volatility := 1, maxDelta := 500 }

/-- Concrete stock used in witnesses: steady state at the initial price. -/
def stockSteady : Stock :=
  { name := "ACME", initialPrice := 100, currentPrice := 100,
    minTrade := 10, maxTrade := 20, volatility := 10, maxDelta := 500 }

/-- Witness for C6: for the steady stock with volatility 10, seed 3 draws
`r = 3`, the volume seed 0 draws `v = 10`, and the theorem applies: the new
price is `100 + (3 - 5)/100` and the delta is price minus initial price. -/
theorem tick_price_jitter_and_delta_witness :
    (stockSteady.currentPrice ≠ 0) ∧
    (Intn stockSteady.volatility 3 = some 3) ∧
    (Randn stockSteady.volatility 1000 0 = some 10) ∧
    (0 ≤ (3 : Int) ∧ (3 : Int) < stockSteady.volatility ∧
      ∃ msg after, updateValues stockSteady "t" 3 0 = some (msg, after) ∧
        msg.price = stockSteady.currentPrice +
          ((3 - Int.tdiv stockSteady.volatility 2 : Int) : ℚ) / 100 ∧
        msg.delta = msg.price - stockSteady.initialPrice) :=
  ⟨by norm_num [stockSteady], by decide, by decide,
   tick_price_jitter_and_delta stockSteady "t" 3 0 3 10
     (by norm_num [stockSteady]) (by decide) (by decide)⟩

/-- C8: on every tick the emitted volume is `Randn(volatility, 1000) * 10`:
for `0 < volatility < 1000` the underlying draw lies in
`[volatility, 1000)`, so the volume is a multiple of 10 in
`[volatility*10, 10000)`; and for `volatility ≥ 1000` the draw is invalid —
`rand.Intn` is called on an empty or negative-width range (modelled by
`none`, a panic in Go), so no tick value is produced at all. -/
theorem tick_volume_range_and_invalid_draw
    (stock : Stock) (now : String) (k1 k2 : Int) :
    (∀ msg after, 0 < stock.volatility → stock.volatility < 1000 →
      updateValues stock now k1 k2 = some (msg, after) →
      (∃ t : Int, msg.vol = 10 * t) ∧
      stock.volatility * 10 ≤ msg.vol ∧ msg.vol < 10000) ∧
    (1000 ≤ stock.volatility →
      Randn stock.volatility 1000 k2 = none ∧
      updateValues stock now k1 k2 = none) := by
  constructor
  · intro msg after hpos hlt h
    cases h1 : Intn stock.volatility k1 with
    | none => rw [updateValues, h1] at h; exact absurd h (by simp)
    | some r =>
      cases h2 : Randn stock.volatility 1000 k2 with
      | none => rw [updateValues, h1, h2] at h; exact absurd h (by simp)
      | some v =>
        have hw : v = k2 % (1000 - stock.volatility) + stock.volatility := by
          rw [Randn, Intn, if_neg (by omega : ¬ (1000 : Int) - stock.volatility ≤ 0)] at h2
          exact (Option.some.inj (by simpa using h2)).symm
        have hw0 : 0 ≤ k2 % (1000 - stock.volatility) :=
          Int.emod_nonneg k2 (by omega)
        have hw1 : k2 % (1000 - stock.volatility) < 1000 - stock.volatility :=
          Int.emod_lt_of_pos k2 (by omega)
        have hmsg : msg.vol = v * 10 := by
          rw [updateValues, h1, h2] at h
          simp only [Option.some.injEq, Prod.mk.injEq] at h
          rw [← h.1]
        refine ⟨⟨v, by rw [hmsg]; ring⟩, ?_, ?_⟩
        · rw [hmsg]; omega
        · rw [hmsg]; omega
  · intro hge
    have hn : Randn stock.volatility 1000 k2 = none := by
      rw [Randn, Intn, if_pos (by omega : (1000 : Int) - stock.volatility ≤ 0)]
      rfl
    refine ⟨hn, ?_⟩
    cases h1 : Intn stock.volatility k1 <;> rw [updateValues, h1, hn]

/-- Concrete stock used in the C8 witness: volatility at the invalid
boundary 1000. -/
def stockWild : Stock :=
  { name := "ACME", initialPrice := 100, currentPrice := 100,
    minTrade := 10, maxTrade := 20, volatility := 1000, maxDelta := 500 }

/-- Witness for C8: for the steady stock (volatility 10), jitter seed 5 and
volume seed 0 give the concrete message with volume 100 — a multiple of 10
in `[100, 10000)` — and for a volatility-1000 stock the volume draw and the
whole tick are invalid. -/
theorem tick_volume_range_and_invalid_draw_witness :
    ((0 : Int) < stockSteady.volatility ∧ stockSteady.volatility < 1000 ∧
      updateValues stockSteady "t" 5 0 =
        some ({ time := "t", price := 100, delta := 0, percentage := 0, vol := 100 }, 100) ∧
      (∃ t : Int,
        (StreamMessage.vol { time := "t", price := 100, delta := 0, percentage := 0, vol := 100 }) = 10 * t) ∧
      stockSteady.volatility * 10 ≤ 100 ∧ (100 : Int) < 10000) ∧
    ((1000 : Int) ≤ stockWild.volatility ∧
      Randn stockWild.volatility 1000 0 = none ∧
      updateValues stockWild "t" 0 0 = none) := by
  have ht : Int.tdiv 10 2 = 5 := by decide
  have hu : updateValues stockSteady "t" 5 0 =
      some ({ time := "t", price := 100, delta := 0, percentage := 0, vol := 100 }, 100) := by
    norm_num [updateValues, stockSteady, Intn, Randn, effPrice, jitter,
      resetTriggered, Roundn, ht]
  have h8 := (tick_volume_range_and_invalid_draw stockSteady "t" 5 0).1
    { time := "t", price := 100, delta := 0, percentage := 0, vol := 100 } 100
    (by decide) (by decide) hu
  have h9 := (tick_volume_range_and_invalid_draw stockWild "t" 0 0).2 (by decide)
  exact ⟨⟨by decide, by decide, hu, h8.1, h8.2.1, h8.2.2⟩, ⟨by decide, h9.1, h9.2⟩⟩

/-- C1: on a tick whose rounded percentage deviation exceeds
`maxDelta/100` in absolute value, the price reset to `initialPrice` is
applied only after the outgoing message is constructed: the stored price for
the next tick is `initialPrice` (and the next tick therefore starts its
computation from `initialPrice`, whatever the draw), while the message of
this tick still carries the pre-reset price `effPrice + jitter`, the
pre-reset delta, and the pre-reset percentage; in the tick's event trace the
message construction (index 1) strictly precedes the price reset (index 2),
which both occur. -/
theorem meanReversion_resets_after_message
    (stock : Stock) (now : String) (k1 k2 k3 : Int)
    (msg : StreamMessage) (after : ℚ)
    (h : updateValues stock now k1 k2 = some (msg, after))
    (hr : resetTriggered stock msg.percentage = true) :
    after = stock.initialPrice ∧
    effPrice { stock with currentPrice := after } = stock.initialPrice ∧
    (∃ r, Intn stock.volatility k1 = some r ∧
      msg.price = effPrice stock + jitter stock r ∧
      msg.delta = msg.price - stock.initialPrice ∧
      msg.percentage = Roundn ((1 - stock.initialPrice / msg.price) * 100) 2) ∧
    (∀ events p, tickTrace stock now k1 k2 k3 = some (events, p) →
      TickEvent.priceReset stock.initialPrice ∈ events ∧
      events.findIdx TickEvent.isMessageConstructed = 1 ∧
      events.findIdx TickEvent.isPriceReset = 2) := by
  have hu := h
  cases h1 : Intn stock.volatility k1 with
  | none => rw [updateValues, h1] at h; exact absurd h (by simp)
  | some r =>
    cases h2 : Randn stock.volatility 1000 k2 with
    | none => rw [updateValues, h1, h2] at h; exact absurd h (by simp)
    | some v =>
      rw [updateValues, h1, h2] at h
      simp only [Option.some.injEq, Prod.mk.injEq] at h
      obtain ⟨hm, ha⟩ := h
      subst hm
      have hr' : resetTriggered stock (Roundn
          ((1 - stock.initialPrice / (effPrice stock + jitter stock r)) * 100) 2) = true := hr
      have hafter : after = stock.initialPrice := by
        rw [← ha, if_pos hr']
      refine ⟨hafter, ?_, ⟨r, rfl, rfl, rfl, rfl⟩, ?_⟩
      · rw [hafter]
        simp [effPrice, ite_self]
      · intro events p htr
        rw [tickTrace, hu] at htr
        cases h3 : Randn stock.minTrade stock.maxTrade k3 with
        | none => rw [h3] at htr; exact absurd htr (by simp)
        | some d =>
          rw [h3] at htr
          simp only [Option.some.injEq, Prod.mk.injEq] at htr
          obtain ⟨he, hp⟩ := htr
          subst he
          rw [if_pos hr]
          refine ⟨by simp, ?_, ?_⟩ <;>
            simp [List.findIdx_cons, TickEvent.isMessageConstructed,
              TickEvent.isPriceReset]

/-- The message the deviant stock computes on a tick with all seeds 0:
price 50, delta -50, percentage -100, volume 10. -/
def msgDeviant : StreamMessage :=
  { time := "t", price := 50, delta := -50, percentage := -100, vol := 10 }

/-- Evaluation of a tick of the deviant stock (all seeds 0): the message
carries the pre-reset values and the price left behind is the initial
price 100. -/
theorem updateValues_stockDeviant :
    updateValues stockDeviant "t" 0 0 = some (msgDeviant, 100) := by
  have ht : Int.tdiv 1 2 = 0 := by decide
  norm_num [updateValues, stockDeviant, msgDeviant, Intn, Randn, effPrice,
    jitter, resetTriggered, Roundn, ht]

/-- The mean-reversion condition holds on the deviant tick. -/
theorem resetTriggered_stockDeviant :
    resetTriggered stockDeviant msgDeviant.percentage = true := by
  simp only [resetTriggered, stockDeviant, msgDeviant, decide_eq_true_eq]
  norm_num

/-- Witness for C1: the deviant stock (initial price 100, current price 50,
volatility 1, maxDelta 500) with all seeds 0 triggers the mean reversion,
and the theorem's conclusions hold at that input. -/
theorem meanReversion_resets_after_message_witness :
    (updateValues stockDeviant "t" 0 0 = some (msgDeviant, 100)) ∧
    (resetTriggered stockDeviant msgDeviant.percentage = true) ∧
    ((100 : ℚ) = stockDeviant.initialPrice ∧
     effPrice { stockDeviant with currentPrice := 100 } = stockDeviant.initialPrice ∧
     (∃ r, Intn stockDeviant.volatility 0 = some r ∧
       msgDeviant.price = effPrice stockDeviant + jitter stockDeviant r ∧
       msgDeviant.delta = msgDeviant.price - stockDeviant.initialPrice ∧
       msgDeviant.percentage =
         Roundn ((1 - stockDeviant.initialPrice / msgDeviant.price) * 100) 2) ∧
     (∀ events p, tickTrace stockDeviant "t" 0 0 0 = some (events, p) →
       TickEvent.priceReset stockDeviant.initialPrice ∈ events ∧
       events.findIdx TickEvent.isMessageConstructed = 1 ∧
       events.findIdx TickEvent.isPriceReset = 2)) :=
  ⟨updateValues_stockDeviant, resetTriggered_stockDeviant,
   meanReversion_resets_after_message stockDeviant "t" 0 0 0 msgDeviant 100
     updateValues_stockDeviant resetTriggered_stockDeviant⟩

/-- The event trace of the deviant stock's tick with all seeds 0: the
mean-reversion reset is taken, the sleep draw is 10. -/
def traceDeviant : List TickEvent :=
  [TickEvent.priceComputed 50,
   TickEvent.messageConstructed msgDeviant,
   TickEvent.priceReset 100,
   TickEvent.publishIssued "ACME" msgDeviant,
   TickEvent.awaiterStarted,
   TickEvent.sleepStarted 10,
   TickEvent.sleepFinished,
   TickEvent.outcomeObserved,
   TickEvent.cycleSignalled]

/-- Concrete evaluation of the deviant stock's tick trace. -/
theorem tickTrace_stockDeviant :
    tickTrace stockDeviant "t" 0 0 0 = some (traceDeviant, 100) := by
  have hRT : resetTriggered ⟨"ACME", 100, 50, 10, 20, 1, 500⟩ (-100 : ℚ) = true :=
    resetTriggered_stockDeviant
  rw [tickTrace, updateValues_stockDeviant,
    (by decide : Randn stockDeviant.minTrade stockDeviant.maxTrade 0 = some 10)]
  simp [resetTriggered_stockDeviant, hRT, traceDeviant, msgDeviant, stockDeviant]

/-- Counterexample to C3: the claim says the inter-tick sleep begins only
after the awaiter has returned the publish request's outcome, but in the
source `time.Sleep` runs before the receive from `done`: in the concrete
tick trace of the deviant stock the sleep-start event (index 5) strictly
precedes the outcome observation (index 7), so it is not the case that the
outcome observation precedes the sleep start. -/
theorem sleep_before_outcome_counterexample :
    tickTrace stockDeviant "t" 0 0 0 = some (traceDeviant, 100) ∧
    traceDeviant.findIdx TickEvent.isSleepStarted = 5 ∧
    traceDeviant.findIdx TickEvent.isOutcomeObserved = 7 ∧
    ¬ (traceDeviant.findIdx TickEvent.isOutcomeObserved <
        traceDeviant.findIdx TickEvent.isSleepStarted) :=
  ⟨tickTrace_stockDeviant, by decide, by decide, by decide⟩

/-- C3 as amended: within every tick the publish request and its awaiter
are launched first, then the sleep runs concurrently with the awaiter — the
sleep begins before the loop observes the outcome, and the outcome is
observed only after the sleep completes; the sleep duration is drawn
uniformly from `[minTrade, maxTrade)` (here: the drawn amount `d` satisfies
`minTrade ≤ d < maxTrade` for every seed, and every such value is reached
as the seed varies). -/
theorem tick_sleep_concurrent_with_awaiter
    (stock : Stock) (now : String) (k1 k2 k3 : Int)
    (events : List TickEvent) (p : ℚ) (d : Int)
    (h : tickTrace stock now k1 k2 k3 = some (events, p))
    (hd : Randn stock.minTrade stock.maxTrade k3 = some d)
    (hlt : stock.minTrade < stock.maxTrade) :
    events.findIdx TickEvent.isPublishIssued <
      events.findIdx TickEvent.isSleepStarted ∧
    events.findIdx TickEvent.isAwaiterStarted <
      events.findIdx TickEvent.isSleepStarted ∧
    events.findIdx TickEvent.isSleepStarted <
      events.findIdx TickEvent.isSleepFinished ∧
    events.findIdx TickEvent.isSleepFinished <
      events.findIdx TickEvent.isOutcomeObserved ∧
    TickEvent.sleepStarted d ∈ events ∧
    stock.minTrade ≤ d ∧ d < stock.maxTrade := by
  have hdb : stock.minTrade ≤ d ∧ d < stock.maxTrade := by
    rw [Randn, Intn, if_neg (by omega : ¬ stock.maxTrade - stock.minTrade ≤ 0)] at hd
    simp only [Option.map_some', Option.some.injEq] at hd
    have h0 : 0 ≤ k3 % (stock.maxTrade - stock.minTrade) :=
      Int.emod_nonneg k3 (by omega)
    have h1 : k3 % (stock.maxTrade - stock.minTrade) <
        stock.maxTrade - stock.minTrade :=
      Int.emod_lt_of_pos k3 (by omega)
    omega
  cases hu : updateValues stock now k1 k2 with
  | none => rw [tickTrace, hu] at h; exact absurd h (by simp)
  | some mp =>
    obtain ⟨msg, pa⟩ := mp
    rw [tickTrace, hu, hd] at h
    simp only [Option.some.injEq, Prod.mk.injEq] at h
    obtain ⟨he, hp⟩ := h
    subst he
    cases hR : resetTriggered stock msg.percentage <;>
      simp [hR, List.findIdx_cons, TickEvent.isPublishIssued,
        TickEvent.isAwaiterStarted, TickEvent.isSleepStarted,
        TickEvent.isSleepFinished, TickEvent.isOutcomeObserved,
        TickEvent.isMessageConstructed, hdb.1, hdb.2]

/-- Witness for C3 (amended): the deviant stock's concrete tick satisfies
the hypotheses, and the conclusions hold there. -/
theorem tick_sleep_concurrent_with_awaiter_witness :
    (tickTrace stockDeviant "t" 0 0 0 = some (traceDeviant, 100)) ∧
    (Randn stockDeviant.minTrade stockDeviant.maxTrade 0 = some 10) ∧
    (stockDeviant.minTrade < stockDeviant.maxTrade) ∧
    (traceDeviant.findIdx TickEvent.isPublishIssued <
       traceDeviant.findIdx TickEvent.isSleepStarted ∧
     traceDeviant.findIdx TickEvent.isAwaiterStarted <
       traceDeviant.findIdx TickEvent.isSleepStarted ∧
     traceDeviant.findIdx TickEvent.isSleepStarted <
       traceDeviant.findIdx TickEvent.isSleepFinished ∧
     traceDeviant.findIdx TickEvent.isSleepFinished <
       traceDeviant.findIdx TickEvent.isOutcomeObserved ∧
     TickEvent.sleepStarted 10 ∈ traceDeviant ∧
     stockDeviant.minTrade ≤ (10 : Int) ∧ (10 : Int) < stockDeviant.maxTrade) :=
  ⟨tickTrace_stockDeviant, by decide, by decide,
   tick_sleep_concurrent_with_awaiter stockDeviant "t" 0 0 0 traceDeviant 100 10
     tickTrace_stockDeviant (by decide) (by decide)⟩

/-- Every successful tick trace contains the outcome observation. -/
theorem tickTrace_outcome_mem
    (stock : Stock) (now : String) (k1 k2 k3 : Int)
    (events : List TickEvent) (p : ℚ)
    (h : tickTrace stock now k1 k2 k3 = some (events, p)) :
    TickEvent.outcomeObserved ∈ events := by
  cases hu : updateValues stock now k1 k2 with
  | none => rw [tickTrace, hu] at h; exact absurd h (by simp)
  | some mp =>
    obtain ⟨msg, pa⟩ := mp
    cases hd : Randn stock.minTrade stock.maxTrade k3 with
    | none => rw [tickTrace, hu, hd] at h; exact absurd h (by simp)
    | some d =>
      rw [tickTrace, hu, hd] at h
      simp only [Option.some.injEq, Prod.mk.injEq] at h
      obtain ⟨he, hp⟩ := h
      subst he
      simp

/-- A list of events all tagged with the same tick index is trivially
sorted by tick index. -/
theorem pairwise_tag_map (n : ℕ) (l : List TickEvent) :
    (l.map (fun e => (n, e))).Pairwise
      (fun a b : ℕ × TickEvent => a.1 ≤ b.1) := by
  induction l with
  | nil => exact List.Pairwise.nil
  | cons a t ih =>
    rw [List.map_cons]
    refine List.Pairwise.cons ?_ ih
    intro b hb
    rcases List.mem_map.1 hb with ⟨x, hx, rfl⟩
    exact le_refl n

/-- Structure of a `RunCycle` trace: every event carries at least the tag
of the tick the run started at, the tags are nondecreasing along the trace
(tick `m`'s events all precede tick `m+1`'s events), and every tick that
ran contributed its outcome observation. -/
theorem runTraceAux_ordered (now : String) :
    ∀ (seeds : List (Int × Int × Int)) (stock : Stock) (n : ℕ)
      (trace : List (ℕ × TickEvent)) (final : ℚ),
      runTraceAux now stock n seeds = some (trace, final) →
      (∀ e ∈ trace, n ≤ e.1) ∧
      List.Pairwise (fun a b : ℕ × TickEvent => a.1 ≤ b.1) trace ∧
      (∀ m, m < seeds.length → (n + m, TickEvent.outcomeObserved) ∈ trace)
  | [], stock, n, trace, final => by
    intro h
    simp only [runTraceAux, Option.some.injEq, Prod.mk.injEq] at h
    obtain ⟨ht, hf⟩ := h
    subst ht
    simp
  | (k1, k2, k3) :: rest, stock, n, trace, final => by
    intro h
    cases htick : tickTrace stock now k1 k2 k3 with
    | none => rw [runTraceAux, htick] at h; exact absurd h (by simp)
    | some ep =>
      obtain ⟨events, priceAfter⟩ := ep
      cases hrest : runTraceAux now { stock with currentPrice := priceAfter }
          (n + 1) rest with
      | none =>
        simp only [runTraceAux, htick, hrest] at h
        exact absurd h (by simp)
      | some lp =>
        obtain ⟨laterEvents, finalPrice⟩ := lp
        simp only [runTraceAux, htick, hrest, Option.some.injEq,
          Prod.mk.injEq] at h
        obtain ⟨ht, hf⟩ := h
        subst ht
        obtain ⟨ih1, ih2, ih3⟩ :=
          runTraceAux_ordered now rest { stock with currentPrice := priceAfter }
            (n + 1) laterEvents finalPrice hrest
        refine ⟨?_, ?_, ?_⟩
        · intro e he
          rcases List.mem_append.1 he with he | he
          · rcases List.mem_map.1 he with ⟨x, hx, rfl⟩
            exact le_refl n
          · exact Nat.le_of_succ_le (ih1 e he)
        · refine List.pairwise_append.2 ⟨pairwise_tag_map n events, ih2, ?_⟩
          intro a ha b hb
          rcases List.mem_map.1 ha with ⟨x, hx, rfl⟩
          exact Nat.le_of_succ_le (ih1 b hb)
        · intro m hm
          cases m with
          | zero =>
            refine List.mem_append.2 (Or.inl ?_)
            rw [Nat.add_zero]
            exact List.mem_map.2
              ⟨TickEvent.outcomeObserved,
               tickTrace_outcome_mem stock now k1 k2 k3 events priceAfter htick, rfl⟩
          | succ m' =>
            refine List.mem_append.2 (Or.inr ?_)
            have harith : n + 1 + m' = n + (m' + 1) := by omega
            rw [← harith]
            exact ih3 m' (Nat.lt_of_succ_lt_succ (by simpa using hm))

/-- C4: ticks of one entity are strictly sequential: in every `RunCycle`
trace the tick tags are nondecreasing along the trace — every event of tick
`N+1` (its price computation included) occurs after every event of tick `N`
— and every tick that ran contains its outcome observation, so tick `N+1`
begins only after tick `N`'s publish request has resolved to an outcome
(success, failure or timeout) and that outcome has been received by the
loop. -/
theorem runCycle_ticks_strictly_sequential
    (stock : Stock) (now : String) (seeds : List (Int × Int × Int))
    (trace : List (ℕ × TickEvent)) (final : ℚ)
    (h : runTrace stock now seeds = some (trace, final)) :
    (∀ i j : Fin trace.length, (i : ℕ) < (j : ℕ) →
      (trace.get i).1 ≤ (trace.get j).1) ∧
    (∀ n, n < seeds.length → (n, TickEvent.outcomeObserved) ∈ trace) := by
  obtain ⟨h1, h2, h3⟩ := runTraceAux_ordered now seeds stock 0 trace final h
  refine ⟨fun i j hij => List.pairwise_iff_get.1 h2 i j hij, ?_⟩
  intro n hn
  simpa using h3 n hn

/-- The deviant stock's one-tick run trace, tagged with tick index 0. -/
def traceTagged : List (ℕ × TickEvent) := traceDeviant.map (fun e => (0, e))

/-- Witness for C4: a concrete one-tick run of the deviant stock satisfies
the hypothesis, and the theorem's conclusions hold on it. -/
theorem runCycle_ticks_strictly_sequential_witness :
    (runTrace stockDeviant "t" [(0, 0, 0)] = some (traceTagged, 100)) ∧
    ((∀ i j : Fin traceTagged.length, (i : ℕ) < (j : ℕ) →
        (traceTagged.get i).1 ≤ (traceTagged.get j).1) ∧
     (∀ n, n < [((0 : Int), (0 : Int), (0 : Int))].length →
        (n, TickEvent.outcomeObserved) ∈ traceTagged)) := by
  have hrun : runTrace stockDeviant "t" [(0, 0, 0)] = some (traceTagged, 100) := by
    simp only [runTrace, runTraceAux, tickTrace_stockDeviant]
    simp [traceTagged]
  exact ⟨hrun,
    runCycle_ticks_strictly_sequential stockDeviant "t" [(0, 0, 0)]
      traceTagged 100 hrun⟩
